/-
Verification of the fpresize resizing engine's core against its
natural-language specification.

The Go source is shallowly embedded:
 * float32/float64 arithmetic is modelled by exact rational arithmetic (ℚ)
   wherever the code uses only field operations, comparisons and
   floor/ceil; the spec's stated tolerances (1e-5, 1.5/255) are designed to
   absorb rounding, so the exact-arithmetic statements are the faithful
   idealisation.  The sRGB converters use `Real.rpow` (math.Pow) and are
   embedded over ℝ.
 * the imperative weight-list construction (append raw entries for one
   destination sample, then normalise that block in place) is embedded as
   a per-destination list `entriesFor` concatenated over all destination
   samples, which produces the identical final list.
 * sample lanes (rows/columns strided through `Pix`) are embedded as
   functions from the sample index along the lane to the sample value;
   the stride multiplication in the Go code is the (injective) map from
   lane index to buffer offset.
 * Go's `int(x)` float-to-int conversion truncates toward zero and is
   embedded as `goTrunc`.
-/
import Mathlib

namespace Fpresize

/-! ## Data model: weight lists (fpresize.go, type fpWeight) -/

/-- One weight-list entry: `fpWeight{srcSamIdx, dstSamIdx int; weight float32}`. -/
structure WeightEntry where
  srcSamIdx : ℤ
  dstSamIdx : ℤ
  weight : ℚ
  deriving DecidableEq, Repr

/-- The per-axis inputs of `createWeightList`, read from the `FPObject`
fields for the chosen dimension (`srcN`, `dstCanvasN`, `dstTrueN`,
`dstOffset`), plus the blur getter's value (`none` models a nil
`blurGetter`) and the `virtualPixels` mode (`0` = `VirtualPixelsNone`,
`1` = `VirtualPixelsTransparent`). -/
structure AxisConfig where
  srcN : ℕ
  dstCanvasN : ℕ
  dstTrueN : ℚ
  dstOffset : ℚ
  blur : Option ℚ
  virtualPixels : ℕ
  deriving DecidableEq, Repr

/-- A resolved resampling filter: `F(x, scaleFactor)`, `Radius(scaleFactor)`,
and the `FilterFlagAsymmetric` bit of `Flags(scaleFactor)` (a nil `Flags`
is modelled by the constantly-`false` function, matching `filterFlags = 0`). -/
structure Filter where
  F : ℚ → ℚ → ℚ
  radius : ℚ → ℚ
  flagsAsymmetric : ℚ → Bool

/-- Go's `int(x)` conversion of a float: truncation toward zero. -/
def goTrunc (q : ℚ) : ℤ := if 0 ≤ q then ⌊q⌋ else ⌈q⌉

/-! ## createWeightList (fpresize.go) -/

/-- `scaleFactor = dstTrueN / srcN_flt`. -/
def scaleFactor (c : AxisConfig) : ℚ := c.dstTrueN / (c.srcN : ℚ)

/-- `reductionFactor`: `srcN/dstTrueN` when reducing, else `1`, multiplied
by the blur getter's value when one is set. -/
def reductionFactor (c : AxisConfig) : ℚ :=
  let r : ℚ := if c.dstTrueN < (c.srcN : ℚ) then (c.srcN : ℚ) / c.dstTrueN else 1
  match c.blur with
  | none => r
  | some b => r * b

/-- `radius = filter.Radius(scaleFactor)`. -/
def radiusOf (f : Filter) (c : AxisConfig) : ℚ := f.radius (scaleFactor c)

/-- `posInSrc := ((0.5+float64(dstSamIdx)-dstOffset)/dstTrueN)*srcN_flt - 0.5`. -/
def posInSrc (c : AxisConfig) (d : ℕ) : ℚ :=
  ((1/2 + (d : ℚ) - c.dstOffset) / c.dstTrueN) * (c.srcN : ℚ) - 1/2

/-- `firstSrcSamIdx := int(math.Ceil(posInSrc - radius*reductionFactor - 0.0001))`. -/
def firstSrcSamIdx (c : AxisConfig) (f : Filter) (d : ℕ) : ℤ :=
  ⌈posInSrc c d - radiusOf f c * reductionFactor c - 1/10000⌉

/-- `lastSrcSamIdx := int(math.Floor(posInSrc + radius*reductionFactor + 0.0001))`. -/
def lastSrcSamIdx (c : AxisConfig) (f : Filter) (d : ℕ) : ℤ :=
  ⌊posInSrc c d + radiusOf f c * reductionFactor c + 1/10000⌋

/-- The source sample indices iterated by the inner loop:
`for srcSamIdx := firstSrcSamIdx; srcSamIdx <= lastSrcSamIdx; srcSamIdx++`. -/
def srcIdxRange (c : AxisConfig) (f : Filter) (d : ℕ) : List ℤ :=
  (List.range (lastSrcSamIdx c f d - firstSrcSamIdx c f d + 1).toNat).map
    (fun (i : ℕ) => firstSrcSamIdx c f d + (i : ℤ))

/-- The argument passed to the filter function:
`arg := (srcSamIdx - posInSrc) / reductionFactor`, negated when negative
unless the filter has the `Asymmetric` flag. -/
def filterArg (c : AxisConfig) (f : Filter) (d : ℕ) (s : ℤ) : ℚ :=
  let arg := ((s : ℚ) - posInSrc c d) / reductionFactor c
  if arg < 0 ∧ f.flagsAsymmetric (scaleFactor c) = false then -arg else arg

/-- `v := filter.F(arg, scaleFactor)`. -/
def filterVal (c : AxisConfig) (f : Filter) (d : ℕ) (s : ℤ) : ℚ :=
  f.F (filterArg c f d s) (scaleFactor c)

/-- One iteration of the inner loop of `createWeightList`: `none` when the
loop `continue`s (out-of-range index with `VirtualPixelsNone`, or a zero
filter value), otherwise the un-normalised entry that is appended.
In-range samples get `{srcSamIdx, dstSamIdx}`; virtual samples get
`{-1, -1}` in both index fields. -/
def entryFor (c : AxisConfig) (f : Filter) (d : ℕ) (s : ℤ) : Option WeightEntry :=
  if ¬(0 ≤ s ∧ s < (c.srcN : ℤ)) ∧ c.virtualPixels = 0 then none
  else
    let v := filterVal c f d s
    if v = 0 then none
    else if 0 ≤ s ∧ s < (c.srcN : ℤ) then some ⟨s, (d : ℤ), v⟩
    else some ⟨-1, -1, v⟩

/-- The un-normalised entries appended for destination sample `d`. -/
def rawEntriesFor (c : AxisConfig) (f : Filter) (d : ℕ) : List WeightEntry :=
  (srcIdxRange c f d).filterMap (entryFor c f d)

/-- `v_norm`: sum of the filter values of the entries appended for `d`
(virtual entries included). -/
def vnormRaw (c : AxisConfig) (f : Filter) (d : ℕ) : ℚ :=
  ((rawEntriesFor c f d).map WeightEntry.weight).sum

/-- The block of normalised entries for destination sample `d`: nothing
when `v_count == 0`; otherwise each appended weight is divided by
`v_norm`, with `1e-6` substituted when `|v_norm| < 1e-6`. -/
def entriesFor (c : AxisConfig) (f : Filter) (d : ℕ) : List WeightEntry :=
  let raw := rawEntriesFor c f d
  if raw.length = 0 then []
  else
    let vn := vnormRaw c f d
    let vn := if |vn| < 1/1000000 then 1/1000000 else vn
    raw.map (fun e => ⟨e.srcSamIdx, e.dstSamIdx, e.weight / vn⟩)

/-- `createWeightList`: the final (re-sliced) weight list, i.e. the
normalised blocks for `dstSamIdx = 0, …, dstCanvasN-1` in order. -/
def createWeightList (c : AxisConfig) (f : Filter) : List WeightEntry :=
  (List.range c.dstCanvasN).flatMap (entriesFor c f)

/-- `weightListCap := int(1.0 + (1.01+2.0*radius*reductionFactor)*float64(dstCanvasN))`. -/
def weightListCap (c : AxisConfig) (f : Filter) : ℤ :=
  goTrunc (1 + (101/100 + 2 * radiusOf f c * reductionFactor c) * (c.dstCanvasN : ℚ))

/-! ## resampleWorker (fpresize.go) -/

/-- One weight-list entry applied to a destination lane
(`dstSam[dstSamIdx*dstStride] += srcSam[srcSamIdx*srcStride] * weight`,
guarded by `srcSamIdx >= 0`); lanes are viewed as functions from the
sample index along the lane to the sample value. -/
def applyEntry (src : ℤ → ℚ) (dst : ℤ → ℚ) (e : WeightEntry) : ℤ → ℚ :=
  if 0 ≤ e.srcSamIdx then
    Function.update dst e.dstSamIdx (dst e.dstSamIdx + src e.srcSamIdx * e.weight)
  else dst

/-- The resample loop of `resampleWorker` over one lane:
`for i := range wc.weightList { … }`. -/
def applyWeightList (wl : List WeightEntry) (src : ℤ → ℚ) (dst : ℤ → ℚ) : ℤ → ℚ :=
  wl.foldl (applyEntry src) dst

/-! ## Spec-side formulation of the weight-list iteration (spec §4.4),
for comparison with the source's `createWeightList`. -/

/-- Spec §4.4 step 1: `p = ((d + 0.5 − offset) / Nt) · Ns − 0.5`. -/
def spec_posInSrc (c : AxisConfig) (d : ℕ) : ℚ :=
  (((d : ℚ) + 1/2 - c.dstOffset) / c.dstTrueN) * (c.srcN : ℚ) - 1/2

/-- Spec §4.4 step 2: `first = ⌈p − radius − 1e−4⌉`, the radius including
the reduction factor. -/
def spec_firstIdx (c : AxisConfig) (f : Filter) (d : ℕ) : ℤ :=
  ⌈spec_posInSrc c d - radiusOf f c * reductionFactor c - 1/10000⌉

/-- Spec §4.4 step 2: `last = ⌊p + radius + 1e−4⌋`. -/
def spec_lastIdx (c : AxisConfig) (f : Filter) (d : ℕ) : ℤ :=
  ⌊spec_posInSrc c d + radiusOf f c * reductionFactor c + 1/10000⌋

/-! ## postProcessRow (fpconvert2.go, second snapshot) -/

/-- One RGBA pixel of the float image (four ℚ samples). -/
structure Pixel where
  r : ℚ
  g : ℚ
  b : ℚ
  a : ℚ
  deriving DecidableEq, Repr

/-- The clamp used throughout `postProcessRow`:
`if x < 0.0 { x = 0.0 } else if x > 1.0 { x = 1.0 }`. -/
def clamp01 (x : ℚ) : ℚ := if x < 0 then 0 else if 1 < x then 1 else x

/-- The per-pixel body of `postProcessRow`: the grayscale fix-up
(copy R to G and B when `!fp.mustProcessColor`), then the
no-transparency branch, the fully-transparent branch, and the
unassociate-then-clamp branch (the division is skipped when `A == 1.0`,
exactly as in the source). -/
def postProcessPixel (mustProcessColor mustProcessTransparency : Bool) (p : Pixel) : Pixel :=
  let p := if mustProcessColor then p else { p with g := p.r, b := p.r }
  if !mustProcessTransparency then
    { r := clamp01 p.r, g := clamp01 p.g, b := clamp01 p.b, a := 1 }
  else if p.a ≤ 0 then ⟨0, 0, 0, 0⟩
  else
    let p := if p.a ≠ 1 then { p with r := p.r / p.a, g := p.g / p.a, b := p.b / p.a } else p
    ⟨clamp01 p.r, clamp01 p.g, clamp01 p.b, clamp01 p.a⟩

/-! ## Channel-processing mask (resizeMain, resizeWidth/resizeHeight,
convertSrc) -/

/-- The concrete storage variants recognised by `convertSrc`'s type
switch. -/
inductive SrcImageKind where
  | nrgba | rgba | ycbcr | gray | gray16 | generic
  deriving DecidableEq, Repr

/-- `fp.srcHasColor` as set by `convertSrc`: initialised `true`, reset to
`false` in the `*image.Gray` and `*image.Gray16` cases. -/
def srcHasColorOf (k : SrcImageKind) : Bool :=
  match k with
  | .gray => false
  | .gray16 => false
  | _ => true

/-- `fp.mustProcessTransparency = (fp.srcHasTransparency ||
fp.virtualPixels == VirtualPixelsTransparent)` (resizeMain). -/
def mustProcessTransparencyOf (srcHasTransparency : Bool) (virtualPixels : ℕ) : Bool :=
  srcHasTransparency || virtualPixels == 1

/-- The `fp.channelInfo[k].mustProcess` flags as set by `resizeMain`:
index 3 gets `mustProcessTransparency`, indices 1 and 2 get
`mustProcessColor`, index 0 gets `true`. -/
def channelInfoOf (srcHasTransparency srcHasColor : Bool) (virtualPixels : ℕ) :
    Fin 4 → Bool :=
  fun k =>
    if k.val = 3 then mustProcessTransparencyOf srcHasTransparency virtualPixels
    else if k.val = 1 ∨ k.val = 2 then srcHasColor
    else true

/-- The lanes `resizeWidth` enqueues: one work item per row and channel
`k`, guarded by `fp.channelInfo[k].mustProcess`. -/
def enqueuedLanesWidth (h : ℕ) (ci : Fin 4 → Bool) : List (ℕ × Fin 4) :=
  (List.range h).flatMap
    (fun row => (List.finRange 4).filterMap
      (fun k => if ci k then some (row, k) else none))

/-- The lanes `resizeHeight` enqueues: one work item per sample column
`col < 4*w`, guarded by `fp.channelInfo[col%4].mustProcess`. -/
def enqueuedLanesHeight (w : ℕ) (ci : Fin 4 → Bool) : List ℕ :=
  (List.range (4 * w)).filter
    (fun col => ci ⟨col % 4, Nat.mod_lt col (by norm_num)⟩)

/-! ## Size-limit error paths (resizeMain, convertSrc) -/

/-- `const maxImagePixels = 536870911 // ((2^31)-1)/4` (fpimage.go). -/
def maxImagePixels : ℤ := 536870911

/-- The error behaviour of `convertSrc`: the source-size check at its
start, before the float buffer is allocated (its only error path). -/
def convertSrcCheck (srcW srcH : ℕ) : Except String Unit :=
  if maxImagePixels < (srcW : ℤ) * (srcH : ℤ) then
    .error "Source image too large to process"
  else .ok ()

/-- The error behaviour of one `resizeMain` call: the target-size check,
then (only when `fp.srcFPImage` is nil, i.e. the source is not yet
cached) the ingest via `convertSrc`.  All remaining work is error-free. -/
def resizeMainCheck (srcW srcH dstCanvasW dstCanvasH : ℕ) (srcCached : Bool) :
    Except String Unit :=
  if maxImagePixels < (dstCanvasW : ℤ) * (dstCanvasH : ℤ) then
    .error "Target image too large"
  else if srcCached then .ok ()
  else convertSrcCheck srcW srcH

/-! ## Lookup-table build decisions (fpconvert1.go makeInputLUT_Xto32;
fpconvert2.go second snapshot, makeOutputLUT_Xto8 / makeOutputLUT_Xto32) -/

/-- `CCFFlagNoCache = 0x1`, `CCFFlagWholePixels = 0x2`; converter flags
are a uint32 bit set, modelled as ℕ. -/
def CCFFlagNoCache : ℕ := 1

def CCFFlagWholePixels : ℕ := 2

/-- Whether `makeInputLUT_Xto32` builds a table: the early returns on a
nil `fp.inputCCF`, on the `NoCache`/`WholePixels` bits of
`fp.inputCCFFlags`, and on `fp.srcW*fp.srcH < (tableSize/4)*fp.numWorkers`. -/
def makeInputLUT_built (inputCCFSome : Bool) (inputCCFFlags : ℕ)
    (srcW srcH tableSize numWorkers : ℕ) : Bool :=
  if !inputCCFSome then false
  else if inputCCFFlags &&& CCFFlagNoCache ≠ 0 then false
  else if inputCCFFlags &&& CCFFlagWholePixels ≠ 0 then false
  else if srcW * srcH < (tableSize / 4) * numWorkers then false
  else true

/-- Whether `makeOutputLUT_Xto8`/`makeOutputLUT_Xto32` build a table: the
early returns test a nil `fp.inputCCF` (the *input* converter), the
`NoCache`/`WholePixels` bits of `fp.outputCCFFlags`, and
`fp.dstCanvasW*fp.dstCanvasH < (tableSize/4)*fp.numWorkers`. -/
def makeOutputLUT_built (inputCCFSome : Bool) (outputCCFFlags : ℕ)
    (dstCanvasW dstCanvasH tableSize numWorkers : ℕ) : Bool :=
  if !inputCCFSome then false
  else if outputCCFFlags &&& CCFFlagNoCache ≠ 0 then false
  else if outputCCFFlags &&& CCFFlagWholePixels ≠ 0 then false
  else if dstCanvasW * dstCanvasH < (tableSize / 4) * numWorkers then false
  else true

/-- `wc.outputLUT_Xto8_Size = 9885` (convertDst_NRGBA_internal). -/
def outputLUT8TableSize : ℕ := 9885

/-- The output-table build decision as the claim states it: the *output*
converter is non-null, neither `NoCache` nor `WholePixels` is set on it,
and the destination canvas pixel count is at least the fixed threshold
16384.  (Stated from the spec's words, for comparison with
`makeOutputLUT_built`.) -/
def spec_outputLUT_built (outputCCFSome : Bool) (outputCCFFlags : ℕ) (dstPixels : ℕ) : Bool :=
  outputCCFSome && (outputCCFFlags &&& CCFFlagNoCache == 0)
    && (outputCCFFlags &&& CCFFlagWholePixels == 0) && (16384 ≤ dstPixels : Bool)

/-! ## sRGB color converters (fpresize.go SRGBToLinear / LinearTosRGB),
over ℝ, with math.Pow as `Real.rpow`. -/

/-- The per-sample body of `SRGBToLinear`. -/
noncomputable def srgbToLinearSample (s : ℝ) : ℝ :=
  if s ≤ 0.0404482362771082 then s / 12.92
  else ((s + 0.055) / 1.055) ^ (2.4 : ℝ)

/-- The per-sample body of `LinearTosRGB`. -/
noncomputable def linearTosRGBSample (s : ℝ) : ℝ :=
  if s ≤ 0.00313066844250063 then s * 12.92
  else 1.055 * s ^ ((1 : ℝ) / 2.4) - 0.055

/-- `SRGBToLinear` rewrites every sample of the slice in place. -/
noncomputable def SRGBToLinear (s : List ℝ) : List ℝ := s.map srgbToLinearSample

/-- `LinearTosRGB` rewrites every sample of the slice in place. -/
noncomputable def LinearTosRGB (s : List ℝ) : List ℝ := s.map linearTosRGBSample

/-! ## Target-bounds state machine (fpresize.go SetTargetBounds,
SetTargetBoundsAdvanced, SetVirtualPixels) -/

/-- An `image.Rectangle`. -/
structure Rectangle where
  minX : ℤ
  minY : ℤ
  maxX : ℤ
  maxY : ℤ
  deriving DecidableEq, Repr

/-- The `FPObject` fields touched by the target-bounds methods. -/
structure FPTargetState where
  dstBounds : Rectangle
  dstCanvasW : ℤ
  dstCanvasH : ℤ
  dstOffsetX : ℚ
  dstOffsetY : ℚ
  dstTrueW : ℚ
  dstTrueH : ℚ
  virtualPixels : ℕ
  deriving DecidableEq, Repr

/-- `setTargetCanvasBounds`: store the rectangle, grow each dimension to
at least 1, set the canvas size from it, zero the offsets and make the
true target size the canvas size. -/
def setTargetCanvasBounds (s : FPTargetState) (r : Rectangle) : FPTargetState :=
  let b := { r with
    maxX := if r.maxX < r.minX + 1 then r.minX + 1 else r.maxX,
    maxY := if r.maxY < r.minY + 1 then r.minY + 1 else r.maxY }
  { s with
    dstBounds := b,
    dstCanvasW := b.maxX - b.minX,
    dstCanvasH := b.maxY - b.minY,
    dstOffsetX := 0,
    dstOffsetY := 0,
    dstTrueW := ((b.maxX - b.minX : ℤ) : ℚ),
    dstTrueH := ((b.maxY - b.minY : ℤ) : ℚ) }

/-- `SetTargetBounds`: canvas bounds, then `virtualPixels = VirtualPixelsNone`. -/
def SetTargetBounds (s : FPTargetState) (r : Rectangle) : FPTargetState :=
  { setTargetCanvasBounds s r with virtualPixels := 0 }

/-- `SetTargetBoundsAdvanced`: canvas bounds, then the mapping offsets
and true target size from the two corner points, then
`virtualPixels = VirtualPixelsTransparent`. -/
def SetTargetBoundsAdvanced (s : FPTargetState) (r : Rectangle)
    (x1 y1 x2 y2 : ℚ) : FPTargetState :=
  let s := setTargetCanvasBounds s r
  { s with
    dstOffsetX := x1 - ((s.dstBounds.minX : ℤ) : ℚ),
    dstOffsetY := y1 - ((s.dstBounds.minY : ℤ) : ℚ),
    dstTrueW := x2 - x1,
    dstTrueH := y2 - y1,
    virtualPixels := 1 }

/-- `SetVirtualPixels`. -/
def SetVirtualPixels (s : FPTargetState) (n : ℕ) : FPTargetState :=
  { s with virtualPixels := n }

/-! ## Concrete instances used by counterexamples and witnesses -/

/-- A minimal 1→1 axis with virtual pixels off. -/
def cOne : AxisConfig := ⟨1, 1, 1, 0, none, 0⟩

/-- A box-like filter: constant value 1, radius 1. -/
def fOne : Filter := ⟨fun _ _ => 1, fun _ => 1, fun _ => false⟩

/-- A pathological filter with constant value `1e-7` and radius 1: legal
through `SetFilter`, it drives `v_norm` below the `1e-6` clamp. -/
def fTiny : Filter := ⟨fun _ _ => 1/10000000, fun _ => 1, fun _ => false⟩

/-- The 1→1 axis with virtual pixels transparent. -/
def cVirt : AxisConfig := ⟨1, 1, 1, 0, none, 1⟩

/-- A constant filter of radius 2, so the 1→1 axis sees out-of-range
source indices. -/
def fWide : Filter := ⟨fun _ _ => 1, fun _ => 2, fun _ => false⟩

/-- An inverted advanced mapping: `SetTargetBoundsAdvanced` with
`x2 < x1` yields a negative true target size (`dstTrueW = x2 - x1`),
which makes the reduction factor negative. -/
def cInv : AxisConfig := ⟨1, 1, -1, 0, none, 1⟩

/-! ## Helper lemmas -/

theorem sum_map_div (l : List WeightEntry) (vn : ℚ) :
    (l.map fun e => e.weight / vn).sum = (l.map WeightEntry.weight).sum / vn := by
  simp only [div_eq_mul_inv]
  exact List.sum_map_mul_right l WeightEntry.weight vn⁻¹

theorem entriesFor_length (c : AxisConfig) (f : Filter) (d : ℕ) :
    (entriesFor c f d).length = (rawEntriesFor c f d).length := by
  rw [entriesFor]
  split
  · simp_all
  · simp

theorem entriesFor_sum (c : AxisConfig) (f : Filter) (d : ℕ)
    (h : rawEntriesFor c f d ≠ []) :
    ((entriesFor c f d).map WeightEntry.weight).sum =
      vnormRaw c f d /
        (if |vnormRaw c f d| < 1/1000000 then 1/1000000 else vnormRaw c f d) := by
  rw [entriesFor]
  rw [if_neg (by simpa using h)]
  rw [List.map_map]
  have : (WeightEntry.weight ∘ fun e : WeightEntry =>
      (⟨e.srcSamIdx, e.dstSamIdx,
        e.weight / if |vnormRaw c f d| < 1/1000000 then 1/1000000 else vnormRaw c f d⟩ :
        WeightEntry))
      = fun e : WeightEntry =>
        e.weight / if |vnormRaw c f d| < 1/1000000 then 1/1000000 else vnormRaw c f d := rfl
  rw [this, sum_map_div, vnormRaw]

theorem mem_rawEntriesFor_dst {c : AxisConfig} {f : Filter} {d : ℕ} {e : WeightEntry}
    (h : e ∈ rawEntriesFor c f d) : e.dstSamIdx = (d : ℤ) ∨ e.dstSamIdx = -1 := by
  rw [rawEntriesFor, List.mem_filterMap] at h
  obtain ⟨s, _, hs⟩ := h
  rw [entryFor] at hs
  split at hs
  · simp at hs
  · simp only at hs
    split at hs
    · simp at hs
    · split at hs
      · left
        cases hs
        rfl
      · right
        cases hs
        rfl

theorem mem_entriesFor_dst {c : AxisConfig} {f : Filter} {d : ℕ} {e : WeightEntry}
    (h : e ∈ entriesFor c f d) : e.dstSamIdx = (d : ℤ) ∨ e.dstSamIdx = -1 := by
  rw [entriesFor] at h
  split at h
  · simp at h
  · rw [List.mem_map] at h
    obtain ⟨e', he', rfl⟩ := h
    simpa using mem_rawEntriesFor_dst he'

theorem entriesFor_eq_nil_of_raw {c : AxisConfig} {f : Filter} {d : ℕ}
    (h : rawEntriesFor c f d = []) : entriesFor c f d = [] := by
  rw [entriesFor, if_pos (by simp [h])]

/-! ## C1: weight normalization -/

/-- C1 (amended): for every destination sample `d` with at least one
entry, the normalized weights of `d`'s entries sum to exactly `1`
(hence to `1` within `1e-5`) whenever the pre-normalization sum `Σ`
satisfies `|Σ| ≥ 1e-6`; destination indices with no appended entry are
omitted from the weight list entirely; and when `|Σ| < 1e-6` the divisor
`1e-6` is substituted, so the normalized sum is `Σ/1e-6` (which need not
be near `1`). -/
theorem weightList_normalization (c : AxisConfig) (f : Filter) (d : ℕ)
    (hd : d < c.dstCanvasN) :
    (entriesFor c f d ≠ [] → 1/1000000 ≤ |vnormRaw c f d| →
      ((entriesFor c f d).map WeightEntry.weight).sum = 1) ∧
    (rawEntriesFor c f d = [] →
      (createWeightList c f).filter (fun e => decide (e.dstSamIdx = (d : ℤ))) = []) ∧
    (rawEntriesFor c f d ≠ [] → |vnormRaw c f d| < 1/1000000 →
      ((entriesFor c f d).map WeightEntry.weight).sum = vnormRaw c f d / (1/1000000)) := by
  refine ⟨fun hne hge => ?_, fun hraw => ?_, fun hraw hlt => ?_⟩
  · have hraw : rawEntriesFor c f d ≠ [] := fun h => hne (entriesFor_eq_nil_of_raw h)
    have hvn : vnormRaw c f d ≠ 0 := by
      intro h0
      rw [h0] at hge
      norm_num at hge
    rw [entriesFor_sum c f d hraw, if_neg (not_lt.mpr hge), div_self hvn]
  · rw [createWeightList, List.filter_flatMap]
    rw [List.flatMap_eq_nil_iff]
    intro d' hd'
    rw [List.filter_eq_nil_iff]
    intro e he
    rcases mem_entriesFor_dst he with h | h
    · by_cases hdd : d' = d
      · subst hdd
        rw [entriesFor_eq_nil_of_raw hraw] at he
        exact absurd he (List.not_mem_nil e)
      · simp only [h, decide_eq_true_eq, Int.natCast_inj]
        exact fun hc => hdd hc
    · simp only [h, decide_eq_true_eq]
      omega
  · rw [entriesFor_sum c f d hraw, if_pos hlt]

/-- C1 counterexample: with the legal (but pathological) constant filter
`F ≡ 1e-7` of radius 1 on a 1→1 axis, the builder appends exactly one
entry for `d = 0`, whose pre-normalization sum `1e-7` is clamped to the
divisor `1e-6`, leaving a normalized per-destination sum of `1/10` —
not within `1e-5` of `1`. -/
theorem weightList_normalization_cex :
    createWeightList cOne fTiny = [⟨0, 0, 1/10⟩] ∧
    ¬ (|((createWeightList cOne fTiny).map WeightEntry.weight).sum - 1| ≤ 1/100000) := by
  have hfirst : firstSrcSamIdx cOne fTiny 0 = -1 := by
    rw [firstSrcSamIdx, Int.ceil_eq_iff]
    norm_num [posInSrc, radiusOf, reductionFactor, scaleFactor, cOne, fTiny]
  have hlast : lastSrcSamIdx cOne fTiny 0 = 1 := by
    rw [lastSrcSamIdx, Int.floor_eq_iff]
    norm_num [posInSrc, radiusOf, reductionFactor, scaleFactor, cOne, fTiny]
  have hrange : srcIdxRange cOne fTiny 0 = [-1, 0, 1] := by
    rw [srcIdxRange, hfirst, hlast]
    decide
  have e1 : entryFor cOne fTiny 0 (-1) = none := by
    norm_num [entryFor, cOne]
  have e2 : entryFor cOne fTiny 0 0 = some ⟨0, 0, 1/10000000⟩ := by
    norm_num [entryFor, filterVal, filterArg, posInSrc, reductionFactor, scaleFactor,
      cOne, fTiny]
  have e3 : entryFor cOne fTiny 0 1 = none := by
    norm_num [entryFor, cOne]
  have hraw : rawEntriesFor cOne fTiny 0 = [⟨0, 0, 1/10000000⟩] := by
    rw [rawEntriesFor, hrange]
    simp [e1, e2, e3]
  have hvn : vnormRaw cOne fTiny 0 = 1/10000000 := by
    rw [vnormRaw, hraw]
    norm_num
  have hblock : entriesFor cOne fTiny 0 = [⟨0, 0, 1/10⟩] := by
    rw [entriesFor, hraw, hvn]
    norm_num
    rw [show |(1:ℚ)/10000000| = 1/10000000 from abs_of_pos (by norm_num)]
    norm_num
  have hN : cOne.dstCanvasN = 1 := rfl
  have hlist : createWeightList cOne fTiny = [⟨0, 0, 1/10⟩] := by
    rw [createWeightList, hN]
    simp [List.range_succ, hblock]
  refine ⟨hlist, ?_⟩
  rw [hlist]
  simp only [List.map_cons, List.map_nil, List.sum_cons, List.sum_nil]
  rw [show |(1:ℚ)/10 + 0 - 1| = 9/10 by rw [abs_of_nonpos] <;> norm_num]
  norm_num

/-- C1 witness: a sane filter (constant 1, radius 1) on the 1→1 axis has
one entry for `d = 0`, pre-normalization sum `1 ≥ 1e-6`, and normalized
sum exactly `1`. -/
theorem weightList_normalization_witness :
    entriesFor cOne fOne 0 ≠ [] ∧ (1:ℚ)/1000000 ≤ |vnormRaw cOne fOne 0| ∧
      ((entriesFor cOne fOne 0).map WeightEntry.weight).sum = 1 := by
  have hfirst : firstSrcSamIdx cOne fOne 0 = -1 := by
    rw [firstSrcSamIdx, Int.ceil_eq_iff]
    norm_num [posInSrc, radiusOf, reductionFactor, scaleFactor, cOne, fOne]
  have hlast : lastSrcSamIdx cOne fOne 0 = 1 := by
    rw [lastSrcSamIdx, Int.floor_eq_iff]
    norm_num [posInSrc, radiusOf, reductionFactor, scaleFactor, cOne, fOne]
  have hrange : srcIdxRange cOne fOne 0 = [-1, 0, 1] := by
    rw [srcIdxRange, hfirst, hlast]
    decide
  have e1 : entryFor cOne fOne 0 (-1) = none := by
    norm_num [entryFor, cOne]
  have e2 : entryFor cOne fOne 0 0 = some ⟨0, 0, 1⟩ := by
    norm_num [entryFor, filterVal, filterArg, posInSrc, reductionFactor, scaleFactor,
      cOne, fOne]
  have e3 : entryFor cOne fOne 0 1 = none := by
    norm_num [entryFor, cOne]
  have hraw : rawEntriesFor cOne fOne 0 = [⟨0, 0, 1⟩] := by
    rw [rawEntriesFor, hrange]
    simp [e1, e2, e3]
  have hvn : vnormRaw cOne fOne 0 = 1 := by
    rw [vnormRaw, hraw]
    norm_num
  have hne : entriesFor cOne fOne 0 ≠ [] := by
    have : (entriesFor cOne fOne 0).length = 1 := by
      rw [entriesFor_length, hraw]
      rfl
    intro h
    rw [h] at this
    exact absurd this (by norm_num)
  have hge : (1:ℚ)/1000000 ≤ |vnormRaw cOne fOne 0| := by
    rw [hvn]
    norm_num
  exact ⟨hne, hge, (weightList_normalization cOne fOne 0 (by decide)).1 hne hge⟩

/-! ## C3: virtual pixels -/

theorem applyWeightList_filter_nonneg (wl : List WeightEntry) (src dst : ℤ → ℚ) :
    applyWeightList wl src dst =
      applyWeightList (wl.filter fun e => decide (0 ≤ e.srcSamIdx)) src dst := by
  induction wl generalizing dst with
  | nil => rfl
  | cons e tl ih =>
    by_cases h : 0 ≤ e.srcSamIdx
    · rw [List.filter_cons_of_pos (by simpa using h)]
      exact ih (applyEntry src dst e)
    · rw [List.filter_cons_of_neg (by simpa using h)]
      have he : applyEntry src dst e = dst := by
        rw [applyEntry, if_neg h]
      calc applyWeightList (e :: tl) src dst
          = applyWeightList tl src (applyEntry src dst e) := rfl
        _ = applyWeightList tl src dst := by rw [he]
        _ = applyWeightList (tl.filter fun e => decide (0 ≤ e.srcSamIdx)) src dst := ih dst

/-- C3 (amended): in Transparent mode every out-of-range source index in
the iteration range whose filter value is nonzero is appended with the
source-index field set to `-1` — and, unlike the spec's `(−1, d, w)`
description, with the destination-index field also set to `-1`; the
appended weight is one of the values summed by `v_norm`; and the
resampler skips every entry with a negative source index, so virtual
entries contribute to normalization only and add nothing to any
destination sample (the `-1` destination index is never read). -/
theorem virtualEntries (c : AxisConfig) (f : Filter) (d : ℕ) (s : ℤ)
    (hmode : c.virtualPixels ≠ 0) (hs : s ∈ srcIdxRange c f d)
    (hout : ¬(0 ≤ s ∧ s < (c.srcN : ℤ))) (hv : filterVal c f d s ≠ 0) :
    (⟨-1, -1, filterVal c f d s⟩ : WeightEntry) ∈ rawEntriesFor c f d ∧
    vnormRaw c f d = ((rawEntriesFor c f d).map WeightEntry.weight).sum ∧
    ∀ (wl : List WeightEntry) (src dst : ℤ → ℚ),
      applyWeightList wl src dst =
        applyWeightList (wl.filter fun e => decide (0 ≤ e.srcSamIdx)) src dst := by
  refine ⟨?_, rfl, applyWeightList_filter_nonneg⟩
  rw [rawEntriesFor, List.mem_filterMap]
  refine ⟨s, hs, ?_⟩
  rw [entryFor, if_neg (by tauto)]
  simp only [if_neg hv, if_neg hout]

/-- C3 counterexample: with a constant filter of radius 2 on a 1→1 axis
in Transparent mode, all five entries are appended for `d = 0`, but the
four virtual entries carry `dstSamIdx = -1`, not `0` — refuting the
spec's description that only `srcIdx` is `-1` and entries for a given
`dstIdx` carry that `dstIdx`. -/
theorem virtualEntries_cex :
    createWeightList cVirt fWide =
      [⟨-1, -1, 1/5⟩, ⟨-1, -1, 1/5⟩, ⟨0, 0, 1/5⟩, ⟨-1, -1, 1/5⟩, ⟨-1, -1, 1/5⟩] ∧
    cVirt.dstCanvasN = 1 ∧
    ((createWeightList cVirt fWide).filter
      (fun e => decide (e.dstSamIdx = (0 : ℤ)))).length = 1 := by
  have hfirst : firstSrcSamIdx cVirt fWide 0 = -2 := by
    rw [firstSrcSamIdx, Int.ceil_eq_iff]
    norm_num [posInSrc, radiusOf, reductionFactor, scaleFactor, cVirt, fWide]
  have hlast : lastSrcSamIdx cVirt fWide 0 = 2 := by
    rw [lastSrcSamIdx, Int.floor_eq_iff]
    norm_num [posInSrc, radiusOf, reductionFactor, scaleFactor, cVirt, fWide]
  have hrange : srcIdxRange cVirt fWide 0 = [-2, -1, 0, 1, 2] := by
    rw [srcIdxRange, hfirst, hlast]
    decide
  have eOut : ∀ s : ℤ, ¬(0 ≤ s ∧ s < ((1:ℕ) : ℤ)) →
      entryFor cVirt fWide 0 s = some ⟨-1, -1, 1⟩ := by
    intro s hs
    rw [entryFor, if_neg (by simp [cVirt])]
    simp only [filterVal, fWide, cVirt]
    norm_num
    omega
  have e0 : entryFor cVirt fWide 0 0 = some ⟨0, 0, 1⟩ := by
    norm_num [entryFor, filterVal, filterArg, posInSrc, reductionFactor, scaleFactor,
      cVirt, fWide]
  have hraw : rawEntriesFor cVirt fWide 0 =
      [⟨-1, -1, 1⟩, ⟨-1, -1, 1⟩, ⟨0, 0, 1⟩, ⟨-1, -1, 1⟩, ⟨-1, -1, 1⟩] := by
    rw [rawEntriesFor, hrange]
    simp [List.filterMap_cons, eOut (-2) (by omega), eOut (-1) (by omega), e0,
      eOut 1 (by omega), eOut 2 (by omega)]
  have hvn : vnormRaw cVirt fWide 0 = 5 := by
    rw [vnormRaw, hraw]
    norm_num
  have hblock : entriesFor cVirt fWide 0 =
      [⟨-1, -1, 1/5⟩, ⟨-1, -1, 1/5⟩, ⟨0, 0, 1/5⟩, ⟨-1, -1, 1/5⟩, ⟨-1, -1, 1/5⟩] := by
    rw [entriesFor, hraw, hvn]
    norm_num
  have hN : cVirt.dstCanvasN = 1 := rfl
  have hlist : createWeightList cVirt fWide =
      [⟨-1, -1, 1/5⟩, ⟨-1, -1, 1/5⟩, ⟨0, 0, 1/5⟩, ⟨-1, -1, 1/5⟩, ⟨-1, -1, 1/5⟩] := by
    rw [createWeightList, hN]
    simp [List.range_succ, hblock]
  refine ⟨hlist, hN, ?_⟩
  rw [hlist]
  decide

/-- C3 witness: on the concrete Transparent-mode axis, the out-of-range
index `-1` with nonzero filter value yields the `⟨-1, -1, 1⟩` entry in
the raw per-destination block. -/
theorem virtualEntries_witness :
    (⟨-1, -1, filterVal cVirt fWide 0 (-1)⟩ : WeightEntry) ∈ rawEntriesFor cVirt fWide 0 := by
  have hfirst : firstSrcSamIdx cVirt fWide 0 = -2 := by
    rw [firstSrcSamIdx, Int.ceil_eq_iff]
    norm_num [posInSrc, radiusOf, reductionFactor, scaleFactor, cVirt, fWide]
  have hlast : lastSrcSamIdx cVirt fWide 0 = 2 := by
    rw [lastSrcSamIdx, Int.floor_eq_iff]
    norm_num [posInSrc, radiusOf, reductionFactor, scaleFactor, cVirt, fWide]
  have hrange : srcIdxRange cVirt fWide 0 = [-2, -1, 0, 1, 2] := by
    rw [srcIdxRange, hfirst, hlast]
    decide
  refine (virtualEntries cVirt fWide 0 (-1) (by decide) ?_ (by decide) ?_).1
  · rw [hrange]
    decide
  · rw [filterVal]
    norm_num [fWide]

/-! ## C4: the iteration range -/

/-- C4 (confirmed): for every destination sample `d` in `[0, Nc)`, the
builder's fractional centre equals the spec's
`p = ((d + 0.5 − offset) / Nt) · Ns − 0.5`, and the inner loop visits
exactly the integer source indices in
`[⌈p − radius − 1e−4⌉, ⌊p + radius + 1e−4⌋]`, the radius including the
reduction factor. -/
theorem iterationRange (c : AxisConfig) (f : Filter) (d : ℕ)
    (_hd : d < c.dstCanvasN) :
    posInSrc c d = spec_posInSrc c d ∧
    ∀ s : ℤ, s ∈ srcIdxRange c f d ↔
      (spec_firstIdx c f d ≤ s ∧ s ≤ spec_lastIdx c f d) := by
  have hp : posInSrc c d = spec_posInSrc c d := by
    rw [posInSrc, spec_posInSrc]
    ring
  have hfi : spec_firstIdx c f d = firstSrcSamIdx c f d := by
    rw [spec_firstIdx, firstSrcSamIdx, hp]
  have hla : spec_lastIdx c f d = lastSrcSamIdx c f d := by
    rw [spec_lastIdx, lastSrcSamIdx, hp]
  refine ⟨hp, fun s => ?_⟩
  rw [hfi, hla, srcIdxRange]
  constructor
  · intro hmem
    obtain ⟨i, hi, rfl⟩ := List.mem_map.mp hmem
    rw [List.mem_range] at hi
    omega
  · intro h
    refine List.mem_map.mpr ⟨(s - firstSrcSamIdx c f d).toNat,
      List.mem_range.mpr (by omega), by omega⟩

/-- C4 witness: on the concrete 1→1 axis, index `0` lies in the iteration
range and the spec's interval `[-1, 1]` agrees. -/
theorem iterationRange_witness :
    (0:ℤ) ∈ srcIdxRange cOne fOne 0 ↔
      (spec_firstIdx cOne fOne 0 ≤ 0 ∧ (0:ℤ) ≤ spec_lastIdx cOne fOne 0) :=
  (iterationRange cOne fOne 0 (by decide)).2 0

/-! ## C9: the capacity bound -/

theorem rawEntriesFor_length_le (c : AxisConfig) (f : Filter) (d : ℕ) :
    (rawEntriesFor c f d).length ≤
      (lastSrcSamIdx c f d - firstSrcSamIdx c f d + 1).toNat := by
  rw [rawEntriesFor]
  calc ((srcIdxRange c f d).filterMap (entryFor c f d)).length
      ≤ (srcIdxRange c f d).length := List.length_filterMap_le _ _
    _ = (lastSrcSamIdx c f d - firstSrcSamIdx c f d + 1).toNat := by
        rw [srcIdxRange, List.length_map, List.length_range]

theorem intervalSize_le (c : AxisConfig) (f : Filter) (d : ℕ)
    (hR : 0 ≤ radiusOf f c * reductionFactor c) :
    (((lastSrcSamIdx c f d - firstSrcSamIdx c f d + 1).toNat : ℚ)) ≤
      2 * (radiusOf f c * reductionFactor c) + 1 + 2/10000 := by
  have h1 : ((lastSrcSamIdx c f d : ℤ) : ℚ) ≤
      posInSrc c d + radiusOf f c * reductionFactor c + 1/10000 := Int.floor_le _
  have h2 : posInSrc c d - radiusOf f c * reductionFactor c - 1/10000 ≤
      ((firstSrcSamIdx c f d : ℤ) : ℚ) := Int.le_ceil _
  by_cases hc : lastSrcSamIdx c f d - firstSrcSamIdx c f d + 1 ≤ 0
  · rw [Int.toNat_of_nonpos hc]
    push_cast
    linarith
  · push_neg at hc
    have hx : (((lastSrcSamIdx c f d - firstSrcSamIdx c f d + 1).toNat : ℤ)) =
        lastSrcSamIdx c f d - firstSrcSamIdx c f d + 1 := Int.toNat_of_nonneg (by omega)
    have hxq : (((lastSrcSamIdx c f d - firstSrcSamIdx c f d + 1).toNat : ℚ)) =
        ((lastSrcSamIdx c f d : ℤ) : ℚ) - ((firstSrcSamIdx c f d : ℤ) : ℚ) + 1 := by
      rw [show (((lastSrcSamIdx c f d - firstSrcSamIdx c f d + 1).toNat : ℚ)) =
          ((((lastSrcSamIdx c f d - firstSrcSamIdx c f d + 1).toNat : ℤ)) : ℚ) by push_cast; ring]
      rw [hx]
      push_cast
      ring
    rw [hxq]
    linarith

theorem entriesFor_length_le (c : AxisConfig) (f : Filter) (d : ℕ)
    (hR : 0 ≤ radiusOf f c * reductionFactor c) :
    ((entriesFor c f d).length : ℚ) ≤
      2 * (radiusOf f c * reductionFactor c) + 1 + 2/10000 := by
  rw [entriesFor_length]
  calc ((rawEntriesFor c f d).length : ℚ)
      ≤ (((lastSrcSamIdx c f d - firstSrcSamIdx c f d + 1).toNat : ℚ)) := by
        exact_mod_cast Nat.cast_le.mpr (rawEntriesFor_length_le c f d)
    _ ≤ 2 * (radiusOf f c * reductionFactor c) + 1 + 2/10000 := intervalSize_le c f d hR

/-- C9 (amended, with nonnegativity of the *effective* radius
`radius·reductionFactor` as the hypothesis): the number of entries the
builder appends never exceeds the capacity
`int(1.0 + (1.01 + 2·radius·reductionFactor) · dstCanvasN)` it
allocates, so every write `weightList[weightsUsed]` during construction
stays in bounds.  The filter's own radius being nonnegative does not
suffice: an inverted advanced mapping makes the reduction factor
negative and the computed capacity can then be negative. -/
theorem capacityBound (c : AxisConfig) (f : Filter)
    (hR : 0 ≤ radiusOf f c * reductionFactor c) :
    ((createWeightList c f).length : ℤ) ≤ weightListCap c f := by
  have hcapnn : (0:ℚ) ≤ 1 + (101/100 + 2 * radiusOf f c * reductionFactor c) *
      (c.dstCanvasN : ℚ) := by
    have h1 : (0:ℚ) ≤ (101/100 + 2 * radiusOf f c * reductionFactor c) *
        (c.dstCanvasN : ℚ) :=
      mul_nonneg (by linarith) (Nat.cast_nonneg _)
    linarith
  rw [weightListCap, goTrunc, if_pos hcapnn, Int.le_floor]
  have hlen : ((createWeightList c f).length : ℚ) ≤
      (c.dstCanvasN : ℚ) * (2 * (radiusOf f c * reductionFactor c) + 1 + 2/10000) := by
    rw [createWeightList, List.length_flatMap]
    have hcast : ((((List.range c.dstCanvasN).map
        (List.length ∘ entriesFor c f)).sum : ℕ) : ℚ) =
        ((List.range c.dstCanvasN).map
          (fun d => ((entriesFor c f d).length : ℚ))).sum := by
      rw [Nat.cast_list_sum, List.map_map]
      rfl
    rw [hcast]
    calc ((List.range c.dstCanvasN).map
          (fun d => ((entriesFor c f d).length : ℚ))).sum
        ≤ ((List.range c.dstCanvasN).map
            (fun _ => 2 * (radiusOf f c * reductionFactor c) + 1 + 2/10000)).sum :=
          List.sum_le_sum (fun d _ => entriesFor_length_le c f d hR)
      _ = (c.dstCanvasN : ℚ) *
            (2 * (radiusOf f c * reductionFactor c) + 1 + 2/10000) := by
          rw [List.map_const', List.sum_replicate, List.length_range, nsmul_eq_mul]
  have hmono : (c.dstCanvasN : ℚ) *
      (2 * (radiusOf f c * reductionFactor c) + 1 + 2/10000) ≤
      (c.dstCanvasN : ℚ) * (101/100 + 2 * radiusOf f c * reductionFactor c) :=
    mul_le_mul_of_nonneg_left (by linarith) (Nat.cast_nonneg _)
  have : ((createWeightList c f).length : ℚ) ≤
      1 + (101/100 + 2 * radiusOf f c * reductionFactor c) * (c.dstCanvasN : ℚ) := by
    nlinarith [Nat.cast_nonneg (α := ℚ) c.dstCanvasN]
  exact_mod_cast this

/-- C9 counterexample: the radius-2 filter has nonnegative radius, yet
on the inverted axis (`dstTrueN = -1`, so `reductionFactor = -1`) the
computed capacity is `int(1 + (1.01 - 4)·1) = -1`, below the entry count
`0` — in Go, `make([]fpWeight, -1)` panics before any entry is written. -/
theorem capacityBound_cex :
    (0:ℚ) ≤ radiusOf fWide cInv ∧
    createWeightList cInv fWide = [] ∧
    weightListCap cInv fWide = -1 ∧
    ¬ (((createWeightList cInv fWide).length : ℤ) ≤ weightListCap cInv fWide) := by
  have hrad : radiusOf fWide cInv = 2 := rfl
  have hred : reductionFactor cInv = -1 := by
    rw [reductionFactor]
    norm_num [cInv]
  have hfirst : firstSrcSamIdx cInv fWide 0 = 1 := by
    rw [firstSrcSamIdx, Int.ceil_eq_iff]
    norm_num [posInSrc, radiusOf, reductionFactor, scaleFactor, cInv, fWide]
  have hlast : lastSrcSamIdx cInv fWide 0 = -3 := by
    rw [lastSrcSamIdx, Int.floor_eq_iff]
    norm_num [posInSrc, radiusOf, reductionFactor, scaleFactor, cInv, fWide]
  have hrange : srcIdxRange cInv fWide 0 = [] := by
    rw [srcIdxRange, hfirst, hlast]
    decide
  have hraw : rawEntriesFor cInv fWide 0 = [] := by
    rw [rawEntriesFor, hrange]
    rfl
  have hlist : createWeightList cInv fWide = [] := by
    rw [createWeightList, show cInv.dstCanvasN = 1 from rfl]
    simp [List.range_succ, entriesFor_eq_nil_of_raw hraw]
  have harg : 1 + (101/100 + 2 * radiusOf fWide cInv * reductionFactor cInv) *
      (cInv.dstCanvasN : ℚ) = -199/100 := by
    rw [hrad, hred]
    norm_num [cInv]
  have hcap : weightListCap cInv fWide = -1 := by
    rw [weightListCap, goTrunc, harg, if_neg (by norm_num), Int.ceil_eq_iff]
    norm_num
  refine ⟨by rw [hrad]; norm_num, hlist, hcap, ?_⟩
  rw [hlist, hcap]
  decide

/-- C9 witness: on the 1→1 axis with the radius-1 constant filter, one
entry is produced and the allocated capacity is 4. -/
theorem capacityBound_witness :
    (0:ℚ) ≤ radiusOf fOne cOne * reductionFactor cOne ∧
      ((createWeightList cOne fOne).length : ℤ) ≤ weightListCap cOne fOne := by
  have hR : (0:ℚ) ≤ radiusOf fOne cOne * reductionFactor cOne := by
    norm_num [radiusOf, reductionFactor, scaleFactor, cOne, fOne]
  exact ⟨hR, capacityBound cOne fOne hR⟩

/-! ## C2: exporter post-processing -/

/-- C2 (confirmed): per pixel, when the image needs no transparency
processing, alpha is forced to `1` and R,G,B are clamped; otherwise an
alpha `≤ 0` yields fully-transparent black; otherwise R,G,B are divided
by alpha first and all four samples are clamped only afterwards (the
source skips the division when alpha is exactly `1`, which is the
identity division).  The `if mpc` terms are the grayscale fix-up that
precedes the transparency handling. -/
theorem postProcessDivideThenClamp (mpc mpt : Bool) (p : Pixel) :
    (mpt = false →
      postProcessPixel mpc mpt p =
        ⟨clamp01 p.r, clamp01 (if mpc then p.g else p.r),
         clamp01 (if mpc then p.b else p.r), 1⟩) ∧
    (mpt = true → p.a ≤ 0 → postProcessPixel mpc mpt p = ⟨0, 0, 0, 0⟩) ∧
    (mpt = true → 0 < p.a →
      postProcessPixel mpc mpt p =
        ⟨clamp01 (p.r / p.a), clamp01 ((if mpc then p.g else p.r) / p.a),
         clamp01 ((if mpc then p.b else p.r) / p.a), clamp01 p.a⟩) := by
  refine ⟨fun h => ?_, fun h ha => ?_, fun h ha => ?_⟩
  · subst h
    cases mpc <;> simp [postProcessPixel]
  · subst h
    cases mpc <;> simp [postProcessPixel, ha]
  · subst h
    have hna : ¬ p.a ≤ 0 := not_le.mpr ha
    by_cases h1 : p.a = 1
    · cases mpc <;> simp [postProcessPixel, hna, h1]
    · cases mpc <;> simp [postProcessPixel, hna, h1]

/-- C2 witness: a pixel with alpha `1/2` is unassociated by division
before clamping. -/
theorem postProcessDivideThenClamp_witness :
    (0:ℚ) < (1:ℚ)/2 ∧
      postProcessPixel true true ⟨1/2, -1, 3, 1/2⟩ =
        ⟨clamp01 ((1/2) / (1/2)), clamp01 ((-1) / (1/2)),
         clamp01 (3 / (1/2)), clamp01 (1/2)⟩ :=
  ⟨by norm_num,
   (postProcessDivideThenClamp true true ⟨1/2, -1, 3, 1/2⟩).2.2 rfl (by norm_num)⟩

/-! ## C5: the channel-processing mask -/

/-- C5 (confirmed): the alpha channel is resampled iff the source had a
non-opaque pixel or the virtual-pixel mode is Transparent; G and B are
resampled iff the source was not statically recognised as grayscale
(`image.Gray` or `image.Gray16`); R is always resampled; and a lane is
enqueued by `resizeWidth`/`resizeHeight` iff it is in range and its
channel's mask bit is set. -/
theorem channelMask (srcHasTransparency : Bool) (k : SrcImageKind)
    (virtualPixels : ℕ) (h w : ℕ) :
    channelInfoOf srcHasTransparency (srcHasColorOf k) virtualPixels ⟨3, by norm_num⟩
        = (srcHasTransparency || decide (virtualPixels = 1)) ∧
    channelInfoOf srcHasTransparency (srcHasColorOf k) virtualPixels ⟨1, by norm_num⟩
        = decide (k ≠ SrcImageKind.gray ∧ k ≠ SrcImageKind.gray16) ∧
    channelInfoOf srcHasTransparency (srcHasColorOf k) virtualPixels ⟨2, by norm_num⟩
        = decide (k ≠ SrcImageKind.gray ∧ k ≠ SrcImageKind.gray16) ∧
    channelInfoOf srcHasTransparency (srcHasColorOf k) virtualPixels ⟨0, by norm_num⟩
        = true ∧
    (∀ (row : ℕ) (ch : Fin 4),
      (row, ch) ∈ enqueuedLanesWidth h
          (channelInfoOf srcHasTransparency (srcHasColorOf k) virtualPixels) ↔
        row < h ∧ channelInfoOf srcHasTransparency (srcHasColorOf k) virtualPixels ch
          = true) ∧
    (∀ col : ℕ,
      col ∈ enqueuedLanesHeight w
          (channelInfoOf srcHasTransparency (srcHasColorOf k) virtualPixels) ↔
        col < 4 * w ∧ channelInfoOf srcHasTransparency (srcHasColorOf k) virtualPixels
          ⟨col % 4, Nat.mod_lt col (by norm_num)⟩ = true) := by
  refine ⟨?_, ?_, ?_, ?_, ?_, ?_⟩
  · by_cases hv : virtualPixels = 1 <;>
      simp [channelInfoOf, mustProcessTransparencyOf, hv]
  · cases k <;> simp [channelInfoOf, srcHasColorOf]
  · cases k <;> simp [channelInfoOf, srcHasColorOf]
  · simp [channelInfoOf]

  · intro row ch
    rw [enqueuedLanesWidth]
    constructor
    · intro hmem
      obtain ⟨r, hr, hmem2⟩ := List.mem_flatMap.mp hmem
      rw [List.mem_range] at hr
      obtain ⟨k', _, hk'⟩ := List.mem_filterMap.mp hmem2
      split at hk'
      · rename_i hci
        obtain ⟨rfl, rfl⟩ : r = row ∧ k' = ch := by
          constructor <;> [exact congrArg Prod.fst (Option.some.inj hk');
            exact congrArg Prod.snd (Option.some.inj hk')]
        exact ⟨hr, hci⟩
      · exact absurd hk' (by simp)
    · rintro ⟨hrow, hci⟩
      exact List.mem_flatMap.mpr ⟨row, List.mem_range.mpr hrow,
        List.mem_filterMap.mpr ⟨ch, List.mem_finRange ch, by rw [if_pos hci]⟩⟩
  · intro col
    rw [enqueuedLanesHeight]
    rw [List.mem_filter, List.mem_range]

/-! ## C6: the size-limit error paths -/

/-- C6 (confirmed): a resize call errors exactly when the target canvas
pixel count exceeds `((2^31)-1)/4 = 536870911` or the (not yet cached)
source pixel count does; the target check comes first, so on a target
error the source is never consulted (ingest is skipped). -/
theorem sizeLimitErrors (srcW srcH dstW dstH : ℕ) :
    maxImagePixels = (2^31 - 1)/4 ∧
    (resizeMainCheck srcW srcH dstW dstH false = .ok () ↔
      ((dstW:ℤ) * (dstH:ℤ) ≤ maxImagePixels ∧ (srcW:ℤ) * (srcH:ℤ) ≤ maxImagePixels)) ∧
    (maxImagePixels < (dstW:ℤ) * (dstH:ℤ) →
      ∀ (sW sH : ℕ) (cached : Bool),
        resizeMainCheck sW sH dstW dstH cached = .error "Target image too large") := by
  refine ⟨by decide, ?_, fun hd sW sH cached => ?_⟩
  · rw [resizeMainCheck]
    by_cases hdst : maxImagePixels < (dstW:ℤ) * (dstH:ℤ)
    · rw [if_pos hdst]
      constructor
      · intro hcontra
        exact absurd hcontra (by simp)
      · rintro ⟨h1, _⟩
        exact absurd hdst (not_lt.mpr h1)
    · rw [if_neg hdst]
      rw [if_neg (by simp : ¬ (false = true))]
      rw [convertSrcCheck]
      by_cases hsrc : maxImagePixels < (srcW:ℤ) * (srcH:ℤ)
      · rw [if_pos hsrc]
        constructor
        · intro hcontra
          exact absurd hcontra (by simp)
        · rintro ⟨_, h2⟩
          exact absurd hsrc (not_lt.mpr h2)
      · rw [if_neg hsrc]
        exact ⟨fun _ => ⟨not_lt.mp hdst, not_lt.mp hsrc⟩, fun _ => rfl⟩
  · rw [resizeMainCheck, if_pos hd]

/-- C6 witness: a 65536×65536 target exceeds the limit and yields the
target-too-large error with the source untouched. -/
theorem sizeLimitErrors_witness :
    maxImagePixels < ((65536:ℕ):ℤ) * ((65536:ℕ):ℤ) ∧
      resizeMainCheck 1 1 65536 65536 false = .error "Target image too large" :=
  ⟨by decide, (sizeLimitErrors 1 1 65536 65536).2.2 (by decide) 1 1 false⟩

/-! ## C7: the lookup-table build decisions -/

/-- C7 (amended): a LUT is built iff the *input* converter is non-null
(the output-table code tests `fp.inputCCF`, an apparent copy-paste of
the input-table check), the respective converter's `NoCache` and
`WholePixels` flags are clear, and the pixel count that would use the
table is at least `(tableSize/4)*numWorkers` — the source pixel count
for input tables and the destination canvas pixel count for output
tables (the same amortization formula, not a fixed 16384 threshold). -/
theorem lutBuildDecision (inSome : Bool) (inFlags outFlags : ℕ)
    (srcW srcH dstW dstH ts nw : ℕ) :
    makeInputLUT_built inSome inFlags srcW srcH ts nw =
      (inSome && decide (inFlags &&& CCFFlagNoCache = 0)
        && decide (inFlags &&& CCFFlagWholePixels = 0)
        && decide ((ts/4) * nw ≤ srcW * srcH)) ∧
    makeOutputLUT_built inSome outFlags dstW dstH ts nw =
      (inSome && decide (outFlags &&& CCFFlagNoCache = 0)
        && decide (outFlags &&& CCFFlagWholePixels = 0)
        && decide ((ts/4) * nw ≤ dstW * dstH)) := by
  constructor
  · rw [makeInputLUT_built]
    split_ifs with h1 h2 h3 h4 <;> simp_all
  · rw [makeOutputLUT_built]
    split_ifs with h1 h2 h3 h4 <;> simp_all

/-- C7 counterexample: with a null input converter but a non-null,
flag-free output converter and a large 256×256 canvas the claim predicts
a table and the code builds none; with both converters set, one worker
and a 100×100 canvas (10000 < 16384 pixels) the claim predicts no table
and the code builds one. -/
theorem lutBuildDecision_cex :
    spec_outputLUT_built true 0 65536 = true ∧
    makeOutputLUT_built false 0 256 256 outputLUT8TableSize 1 = false ∧
    spec_outputLUT_built true 0 10000 = false ∧
    makeOutputLUT_built true 0 100 100 outputLUT8TableSize 1 = true := by
  decide

/-! ## C10: target-bounds state transitions -/

/-- C10 (confirmed): `SetTargetBounds` always resets the virtual-pixel
mode to None and both offsets to zero and makes the true target size the
clamped canvas size; `SetTargetBoundsAdvanced` always sets the mode to
Transparent; both overwrite any earlier `SetVirtualPixels` choice, and a
`SetVirtualPixels` call after the bounds call takes effect. -/
theorem targetBoundsResets (s : FPTargetState) (r : Rectangle)
    (x1 y1 x2 y2 : ℚ) (n : ℕ) :
    (SetTargetBounds s r).virtualPixels = 0 ∧
    (SetTargetBounds s r).dstOffsetX = 0 ∧
    (SetTargetBounds s r).dstOffsetY = 0 ∧
    (SetTargetBounds s r).dstTrueW = ((SetTargetBounds s r).dstCanvasW : ℚ) ∧
    (SetTargetBounds s r).dstTrueH = ((SetTargetBounds s r).dstCanvasH : ℚ) ∧
    (SetTargetBoundsAdvanced s r x1 y1 x2 y2).virtualPixels = 1 ∧
    SetTargetBounds (SetVirtualPixels s n) r = SetTargetBounds s r ∧
    SetTargetBoundsAdvanced (SetVirtualPixels s n) r x1 y1 x2 y2 =
      SetTargetBoundsAdvanced s r x1 y1 x2 y2 ∧
    (SetVirtualPixels (SetTargetBounds s r) n).virtualPixels = n :=
  ⟨rfl, rfl, rfl, rfl, rfl, rfl, rfl, rfl, rfl⟩

/-! ## C8: the sRGB round trip -/

theorem srgb_curve_key :
    (0.00313066844250063:ℝ) < (((11:ℝ)/255 + 0.055)/1.055) ^ (2.4:ℝ) := by
  have hb : ((11:ℝ)/255 + 0.055)/1.055 = 1001/10761 := by norm_num
  rw [hb]
  have hpos : (0:ℝ) < (1001:ℝ)/10761 := by norm_num
  have h5 : (0.00313066844250063:ℝ)^(5:ℕ) < ((1001:ℝ)/10761)^(12:ℕ) := by norm_num
  have h24 : ((1001:ℝ)/10761) ^ (2.4:ℝ) = (((1001:ℝ)/10761) ^ (12:ℕ)) ^ ((1:ℝ)/5) := by
    rw [← Real.rpow_natCast ((1001:ℝ)/10761) 12, ← Real.rpow_mul (le_of_lt hpos)]
    norm_num
  have hc : (0.00313066844250063:ℝ) = ((0.00313066844250063:ℝ)^(5:ℕ))^((1:ℝ)/5) := by
    rw [← Real.rpow_natCast (0.00313066844250063:ℝ) 5, ← Real.rpow_mul (by norm_num)]
    norm_num
  calc (0.00313066844250063:ℝ)
      = ((0.00313066844250063:ℝ)^(5:ℕ))^((1:ℝ)/5) := hc
    _ < (((1001:ℝ)/10761)^(12:ℕ))^((1:ℝ)/5) :=
        Real.rpow_lt_rpow (by positivity) h5 (by norm_num)
    _ = ((1001:ℝ)/10761) ^ (2.4:ℝ) := h24.symm

/-- C8 (confirmed, over exact real arithmetic — the `1.5/255` tolerance
absorbs the float rounding the exact model elides): for every
`x ∈ {0,…,255}/255`, `LinearTosRGB` applied after `SRGBToLinear` on the
single-sample slice `[x]` returns `x` exactly, hence within `1.5/255`. -/
theorem srgbRoundTrip (k : ℕ) (hk : k ≤ 255) :
    |(LinearTosRGB (SRGBToLinear [(k:ℝ)/255])).headI - (k:ℝ)/255| ≤ 1.5/255 := by
  have hx0 : (0:ℝ) ≤ (k:ℝ)/255 := by positivity
  rw [SRGBToLinear, LinearTosRGB]
  simp only [List.map_cons, List.map_nil, List.headI]
  by_cases hk10 : k ≤ 10
  · have hk' : (k:ℝ) ≤ 10 := by exact_mod_cast hk10
    have hxle : (k:ℝ)/255 ≤ 0.0404482362771082 := by
      calc (k:ℝ)/255 ≤ 10/255 := by gcongr
        _ ≤ 0.0404482362771082 := by norm_num
    rw [srgbToLinearSample, if_pos hxle]
    have hl : (k:ℝ)/255/12.92 ≤ 0.00313066844250063 := by
      calc (k:ℝ)/255/12.92 ≤ 10/255/12.92 := by gcongr
        _ ≤ 0.00313066844250063 := by norm_num
    rw [linearTosRGBSample, if_pos hl]
    rw [div_mul_cancel₀ _ (by norm_num : (12.92:ℝ) ≠ 0)]
    rw [sub_self, abs_zero]
    norm_num
  · have hk11 : (11:ℝ) ≤ (k:ℝ) := by exact_mod_cast (by omega : 11 ≤ k)
    have hxgt : ¬ ((k:ℝ)/255 ≤ 0.0404482362771082) := by
      push_neg
      calc (0.0404482362771082:ℝ) < 11/255 := by norm_num
        _ ≤ (k:ℝ)/255 := by gcongr
    rw [srgbToLinearSample, if_neg hxgt]
    have hA : ((11:ℝ)/255 + 0.055)/1.055 ≤ ((k:ℝ)/255 + 0.055)/1.055 := by
      gcongr
    have hA0 : (0:ℝ) ≤ ((11:ℝ)/255 + 0.055)/1.055 := by norm_num
    have hkey : (0.00313066844250063:ℝ) < (((k:ℝ)/255 + 0.055)/1.055) ^ (2.4:ℝ) :=
      lt_of_lt_of_le srgb_curve_key (Real.rpow_le_rpow hA0 hA (by norm_num))
    rw [linearTosRGBSample, if_neg (not_le.mpr hkey)]
    have hxa : (0:ℝ) ≤ ((k:ℝ)/255 + 0.055)/1.055 := by positivity
    have hpow : ((((k:ℝ)/255 + 0.055)/1.055) ^ (2.4:ℝ)) ^ ((1:ℝ)/2.4)
        = ((k:ℝ)/255 + 0.055)/1.055 := by
      rw [← Real.rpow_mul hxa]
      norm_num
    rw [hpow]
    rw [mul_div_cancel₀ _ (by norm_num : (1.055:ℝ) ≠ 0)]
    rw [show (k:ℝ)/255 + 0.055 - 0.055 = (k:ℝ)/255 by ring]
    rw [sub_self, abs_zero]
    norm_num

/-- C8 witness: the round trip at `x = 0`. -/
theorem srgbRoundTrip_witness :
    |(LinearTosRGB (SRGBToLinear [((0:ℕ):ℝ)/255])).headI - ((0:ℕ):ℝ)/255| ≤ 1.5/255 :=
  srgbRoundTrip 0 (by norm_num)

end Fpresize
